import Mathlib

/-!
Verification development for the BDF spectrum visualization tool
(`src/main.cpp` of shiyuwang123/BDF-spectrum-visualize-tool).

The C++ source works on IEEE doubles.  This development embeds the
numeric computations over exact rationals (`ℚ`) — the arithmetic the
code performs is `+`, `-`, `*`, `/`, `min`, `max`, comparisons, `floor`,
`ceil` and `floor ∘ log10`, all of which are exact on `ℚ` — and over the
reals (`ℝ`) for the transcendental Gaussian band model (`exp`), which a
rational model cannot express.  Properties are therefore statements
about the real-number semantics of the code; IEEE rounding is not
modelled.
-/

namespace BDFSpec

/-! ### Constants (main.cpp lines 38-44) -/

def EV_TO_CM_MINUS_1 : ℚ := 8065.54477

def NM_EV_PRODUCT : ℚ := 1239.84186

/-- `PI` as the literal written in the source (a rational approximation). -/
def PI_CONST : ℚ := 3.14159265358979323846

def PREFAC_BROADENING_BASE : ℚ := 1 / 4.33e-9

def PREFAC_ECD_BASE : ℚ := EV_TO_CM_MINUS_1 / 22.9

def KB_EV_PER_K : ℚ := 1.3806504e-23 / 1.602176487e-19

def ROOM_TEMP_K : ℚ := 298.15

/-- The absolute floating tolerance `1e-8` used by the x-grid loop
(main.cpp line 375: `while (current_x <= params.x_end + 1e-8)`). -/
def tol : ℚ := 1 / 100000000

/-! ### Parameter record (main.cpp `struct PlotSpecParams`, lines 47-61),
with the source's default member values. -/

structure PlotSpecParams where
  mode : String := "abs"
  unit : String := "nm"
  x_start : ℚ := 200
  x_end : ℚ := 1000
  interval : ℚ := 1
  user_set_interval : Bool := false
  fwhm_cm_minus_1 : ℚ := 0.5 * EV_TO_CM_MINUS_1
  input_filenames : List String := []
  legend_names : List String := []
  output_format : String := "svg"
  output_filename : String := "spectrum_plot"
  interactive : Bool := true
  kT_eV : ℚ := ROOM_TEMP_K * KB_EV_PER_K

/-! ### The step-while-le loop

Both the x-grid loop (main.cpp lines 374-378) and the tick-generation
loop (lines 526-529) have the same shape: starting from `start`, push
the current value while it is `≤ bound`, then advance by `step`.  The
C++ loops terminate only for `step > 0`; here the loop is run on a fuel
that is provably sufficient exactly when `step > 0` (see
`progAux_eq_range`), and `xLoopFuel` below gives the partiality-honest
model used for the termination claim. -/

def progAux (step bound : ℚ) : ℕ → ℚ → List ℚ
  | 0, _ => []
  | n + 1, cur => if cur ≤ bound then cur :: progAux step bound n (cur + step) else []

def progFuel (start step bound : ℚ) : ℕ := (⌊(bound - start) / step⌋ + 1).toNat

def progWhileLe (start step bound : ℚ) : List ℚ :=
  progAux step bound (progFuel start step bound) start

/-- The x-axis grid of `calculate_single_spectrum` (main.cpp lines 374-378):
step from `x_start` by `interval` while `current_x ≤ x_end + 1e-8`. -/
def xGrid (x_start x_end interval : ℚ) : List ℚ :=
  progWhileLe x_start interval (x_end + tol)

/-- Partiality-honest model of the x-grid `while` loop: `none` means the
given fuel was exhausted with the loop condition still true (so the C++
loop would still be running). -/
def xLoopFuel (x_end interval : ℚ) : ℕ → ℚ → Option (List ℚ)
  | 0, current => if current ≤ x_end + tol then none else some []
  | n + 1, current =>
      if current ≤ x_end + tol then
        Option.map (fun l => current :: l) (xLoopFuel x_end interval n (current + interval))
      else some []

/-! ### Basic facts about the loop -/

lemma count_eq_zero_of_lt {step bound cur : ℚ} (hst : 0 < step) (h : bound < cur) :
    (⌊(bound - cur) / step⌋ + 1).toNat = 0 := by
  have hneg : (bound - cur) / step < 0 :=
    div_neg_of_neg_of_pos (by linarith) hst
  have hfl : ⌊(bound - cur) / step⌋ < 0 := by
    rw [Int.floor_lt]
    exact_mod_cast hneg
  omega

lemma progAux_eq_range (step bound : ℚ) (hst : 0 < step) :
    ∀ (n : ℕ) (cur : ℚ), bound < cur + n * step →
      progAux step bound n cur =
        (List.range (⌊(bound - cur) / step⌋ + 1).toNat).map
          (fun k : ℕ => cur + (k : ℚ) * step) := by
  intro n
  induction n with
  | zero =>
    intro cur h
    rw [count_eq_zero_of_lt hst (by simpa using h)]
    rfl
  | succ n ih =>
    intro cur h
    by_cases hc : cur ≤ bound
    · have hrec : bound < (cur + step) + n * step := by
        push_cast at h ⊢
        linarith
      have hm0 : 0 ≤ ⌊(bound - cur) / step⌋ := by
        apply Int.floor_nonneg.mpr
        exact div_nonneg (by linarith) hst.le
      have hshift : ⌊(bound - (cur + step)) / step⌋ = ⌊(bound - cur) / step⌋ - 1 := by
        have hdiv : (bound - (cur + step)) / step = (bound - cur) / step - 1 := by
          rw [show bound - (cur + step) = (bound - cur) - step by ring, sub_div,
            div_self hst.ne']
        rw [hdiv, Int.floor_sub_one]
      have htn : (⌊(bound - cur) / step⌋ + 1).toNat
          = (⌊(bound - (cur + step)) / step⌋ + 1).toNat + 1 := by
        rw [hshift]; omega
      rw [progAux, if_pos hc, ih (cur + step) hrec, htn, List.range_succ_eq_map]
      simp only [List.map_cons, List.map_map]
      congr 1
      · push_cast; ring
      · apply List.map_congr_left
        intro k _
        simp only [Function.comp_apply]
        push_cast
        ring
    · rw [progAux, if_neg hc, count_eq_zero_of_lt hst (lt_of_not_le hc)]
      rfl

lemma progFuel_spec (start step bound : ℚ) (hst : 0 < step) :
    bound < start + (progFuel start step bound) * step := by
  unfold progFuel
  by_cases hsb : start ≤ bound
  · have hm0 : 0 ≤ ⌊(bound - start) / step⌋ := by
      apply Int.floor_nonneg.mpr
      exact div_nonneg (by linarith) hst.le
    have hcast : ((⌊(bound - start) / step⌋ + 1).toNat : ℚ)
        = (⌊(bound - start) / step⌋ : ℚ) + 1 := by
      have : ((⌊(bound - start) / step⌋ + 1).toNat : ℤ) = ⌊(bound - start) / step⌋ + 1 := by
        omega
      exact_mod_cast congrArg (fun z : ℤ => (z : ℚ)) this
    rw [hcast]
    have hlt : (bound - start) / step < (⌊(bound - start) / step⌋ : ℚ) + 1 :=
      Int.lt_floor_add_one _
    have := (div_lt_iff₀ hst).mp hlt
    linarith
  · push_neg at hsb
    have : (⌊(bound - start) / step⌋ + 1).toNat = 0 := count_eq_zero_of_lt hst hsb
    rw [this]
    push_cast
    linarith

lemma progWhileLe_eq_range (start step bound : ℚ) (hst : 0 < step) :
    progWhileLe start step bound =
      (List.range (⌊(bound - start) / step⌋ + 1).toNat).map
        (fun k : ℕ => start + (k : ℚ) * step) :=
  progAux_eq_range step bound hst _ start (progFuel_spec start step bound hst)

lemma progWhileLe_mem (start step bound q : ℚ) (hst : 0 < step) :
    q ∈ progWhileLe start step bound ↔ ∃ k : ℕ, q = start + (k : ℚ) * step ∧ q ≤ bound := by
  rw [progWhileLe_eq_range start step bound hst]
  simp only [List.mem_map, List.mem_range]
  constructor
  · rintro ⟨k, hk, rfl⟩
    refine ⟨k, rfl, ?_⟩
    have hm0 : 0 ≤ ⌊(bound - start) / step⌋ := by omega
    have hkm : (k : ℤ) ≤ ⌊(bound - start) / step⌋ := by omega
    have hkq : (k : ℚ) ≤ (⌊(bound - start) / step⌋ : ℚ) := by exact_mod_cast hkm
    have hfl : (⌊(bound - start) / step⌋ : ℚ) ≤ (bound - start) / step := Int.floor_le _
    have : (k : ℚ) * step ≤ bound - start := by
      have h1 : (k : ℚ) ≤ (bound - start) / step := le_trans hkq hfl
      calc (k : ℚ) * step ≤ ((bound - start) / step) * step :=
            mul_le_mul_of_nonneg_right h1 hst.le
        _ = bound - start := div_mul_cancel₀ _ hst.ne'
    linarith
  · rintro ⟨k, rfl, hle⟩
    refine ⟨k, ?_, rfl⟩
    have h1 : (k : ℚ) * step ≤ bound - start := by linarith
    have h2 : (k : ℚ) ≤ (bound - start) / step := by
      rw [le_div_iff₀ hst]
      exact h1
    have h3 : (k : ℤ) ≤ ⌊(bound - start) / step⌋ := by
      rw [Int.le_floor]
      exact_mod_cast h2
    omega

lemma progWhileLe_pairwise (start step bound : ℚ) (hst : 0 < step) :
    (progWhileLe start step bound).Pairwise (· < ·) := by
  rw [progWhileLe_eq_range start step bound hst]
  refine List.pairwise_map.mpr ((List.pairwise_lt_range _).imp ?_)
  intro a b hab
  have : (a : ℚ) < (b : ℚ) := by exact_mod_cast hab
  nlinarith

lemma progWhileLe_head (start step bound : ℚ) (hst : 0 < step) (hsb : start ≤ bound) :
    (progWhileLe start step bound).head? = some start := by
  rw [progWhileLe_eq_range start step bound hst]
  have hm0 : 0 ≤ ⌊(bound - start) / step⌋ := by
    apply Int.floor_nonneg.mpr
    exact div_nonneg (by linarith) hst.le
  obtain ⟨m, hm⟩ : ∃ m : ℕ, (⌊(bound - start) / step⌋ + 1).toNat = m + 1 :=
    ⟨(⌊(bound - start) / step⌋).toNat, by omega⟩
  rw [hm, List.range_succ_eq_map]
  simp

lemma progWhileLe_getLast (start step bound : ℚ) (hst : 0 < step) (hsb : start ≤ bound) :
    ∃ l, (progWhileLe start step bound).getLast? = some l ∧ l ≤ bound ∧ bound < l + step := by
  rw [progWhileLe_eq_range start step bound hst]
  have hm0 : 0 ≤ ⌊(bound - start) / step⌋ := by
    apply Int.floor_nonneg.mpr
    exact div_nonneg (by linarith) hst.le
  obtain ⟨m, hm⟩ : ∃ m : ℕ, (⌊(bound - start) / step⌋ + 1).toNat = m + 1 :=
    ⟨(⌊(bound - start) / step⌋).toNat, by omega⟩
  refine ⟨start + (m : ℚ) * step, ?_, ?_, ?_⟩
  · rw [hm, List.range_succ, List.map_append]
    simp
  · have hmf : (m : ℤ) = ⌊(bound - start) / step⌋ := by omega
    have hkq : (m : ℚ) ≤ (bound - start) / step := by
      rw [show ((m : ℚ)) = ((⌊(bound - start) / step⌋ : ℤ) : ℚ) by exact_mod_cast hmf]
      exact Int.floor_le _
    have : (m : ℚ) * step ≤ bound - start := by
      calc (m : ℚ) * step ≤ ((bound - start) / step) * step :=
            mul_le_mul_of_nonneg_right hkq hst.le
        _ = bound - start := div_mul_cancel₀ _ hst.ne'
    linarith
  · have hmf : (m : ℤ) = ⌊(bound - start) / step⌋ := by omega
    have hlt : (bound - start) / step < (m : ℚ) + 1 := by
      rw [show ((m : ℚ)) = ((⌊(bound - start) / step⌋ : ℤ) : ℚ) by exact_mod_cast hmf]
      exact Int.lt_floor_add_one _
    have := (div_lt_iff₀ hst).mp hlt
    linarith

lemma progWhileLe_get (start step bound : ℚ) (hst : 0 < step) (i : ℕ)
    (h : i < (progWhileLe start step bound).length) :
    (progWhileLe start step bound).get ⟨i, h⟩ = start + (i : ℚ) * step := by
  have hrep := progWhileLe_eq_range start step bound hst
  simp only [List.get_eq_getElem]
  simp only [hrep] at h ⊢
  simp

/-! ### Spectrum synthesis (main.cpp `calculate_single_spectrum`, lines 348-468)

The file-opening preamble (lines 349-369) is external I/O and is not part
of the synthesis model; the claims concern the curve computed once the
file is resolved.  The x grid is exact rational arithmetic; the Gaussian
band sums need `Real.exp`, hence `y_values : List ℝ`. -/

structure SpectrumData where
  x_values : List ℚ
  y_values : List ℝ
  x_label : String
  y_label : String
  title : String

/-- Per-point intensity of the `abs` mode (main.cpp lines 387-410): the
accumulator starts at `0.0` and each matching unit branch adds its bands,
so a unit with no branch leaves the intensity at `0`. -/
noncomputable def absIntensity (unit : String) (shift ifac x : ℝ) : ℝ :=
  if unit = "nm" then
    ifac * 15000 * Real.exp (-(((x - 280 - shift) / 15) ^ 2))
      + ifac * 12000 * Real.exp (-(((x - 320 - shift) / 20) ^ 2))
      + ifac * 8000 * Real.exp (-(((x - 420 - shift) / 25) ^ 2))
      + ifac * 5000 * Real.exp (-(((x - 520 - shift) / 30) ^ 2))
  else if unit = "eV" then
    ifac * 15000 * Real.exp (-(((x - 3.1 - shift / 1000) / 0.15) ^ 2))
      + ifac * 12000 * Real.exp (-(((x - 3.9 - shift / 1000) / 0.2) ^ 2))
      + ifac * 8000 * Real.exp (-(((x - 4.4 - shift / 1000) / 0.1) ^ 2))
  else if unit = "cm-1" then
    ifac * 15000 * Real.exp (-(((x - 25000 - shift * 100) / 2000) ^ 2))
      + ifac * 12000 * Real.exp (-(((x - 31000 - shift * 100) / 1500) ^ 2))
      + ifac * 8000 * Real.exp (-(((x - 35000 - shift * 100) / 1000) ^ 2))
  else 0

/-- Per-point intensity of the `emi` mode (main.cpp lines 414-431); there
is no `cm-1` branch in the source, so that unit falls through to `0`. -/
noncomputable def emiIntensity (unit : String) (shift ifac x : ℝ) : ℝ :=
  if unit = "nm" then
    ifac * 0.9 * Real.exp (-(((x - 350 - shift) / 20) ^ 2))
      + ifac * 0.7 * Real.exp (-(((x - 450 - shift) / 25) ^ 2))
      + ifac * 0.5 * Real.exp (-(((x - 550 - shift) / 30) ^ 2))
  else if unit = "eV" then
    ifac * 0.9 * Real.exp (-(((x - 2.8 - shift / 1000) / 0.15) ^ 2))
      + ifac * 0.7 * Real.exp (-(((x - 3.2 - shift / 1000) / 0.2) ^ 2))
      + ifac * 0.5 * Real.exp (-(((x - 3.6 - shift / 1000) / 0.1) ^ 2))
  else 0

/-- Per-point intensity of the `cd`/`cdl` modes (main.cpp lines 435-453),
with alternating band signs. -/
noncomputable def cdIntensity (unit : String) (shift ifac x : ℝ) : ℝ :=
  if unit = "nm" then
    ifac * 50 * Real.exp (-(((x - 260 - shift) / 15) ^ 2))
      - ifac * 40 * Real.exp (-(((x - 300 - shift) / 20) ^ 2))
      + ifac * 30 * Real.exp (-(((x - 340 - shift) / 18) ^ 2))
      - ifac * 20 * Real.exp (-(((x - 380 - shift) / 25) ^ 2))
  else if unit = "eV" then
    ifac * 50 * Real.exp (-(((x - 4.0 - shift / 1000) / 0.15) ^ 2))
      - ifac * 40 * Real.exp (-(((x - 3.5 - shift / 1000) / 0.2) ^ 2))
      + ifac * 30 * Real.exp (-(((x - 3.0 - shift / 1000) / 0.18) ^ 2))
  else 0

/-- The x-axis label assignment (main.cpp lines 459-465); an unmatched
unit leaves the default-constructed empty string. -/
def xLabelOf (unit : String) : String :=
  if unit = "nm" then "Wavelength (nm)"
  else if unit = "eV" then "Energy (eV)"
  else if unit = "cm-1" then "Wavenumber (cm⁻¹)"
  else ""

/-- `calculate_single_spectrum` (main.cpp lines 348-468) without the file
I/O preamble.  `y_values` is resized to all zeros (line 381) and each mode
branch overwrites every entry with its band sum, i.e. maps the per-point
intensity over the grid; an unrecognized mode leaves the zeros and the
default-constructed empty labels.  The source assigns `x_label` from the
unit after the mode dispatch (lines 459-465), uniformly for all branches;
here it is written into each branch. -/
noncomputable def calculate_single_spectrum (params : PlotSpecParams)
    (file_index : ℕ) : SpectrumData :=
  let xs := xGrid params.x_start params.x_end params.interval
  let shift : ℝ := (file_index : ℝ) * 20
  let ifac : ℝ := 1 - (file_index : ℝ) * 0.15
  if params.mode = "abs" then
    { x_values := xs
      y_values := xs.map fun q => absIntensity params.unit shift ifac (q : ℝ)
      x_label := xLabelOf params.unit
      y_label := "Molar Absorptivity (L/(mol·cm))"
      title := "Absorption Spectra" }
  else if params.mode = "emi" then
    { x_values := xs
      y_values := xs.map fun q => emiIntensity params.unit shift ifac (q : ℝ)
      x_label := xLabelOf params.unit
      y_label := "Emission Intensity (arb. units)"
      title := "Emission Spectra" }
  else if params.mode = "cd" ∨ params.mode = "cdl" then
    { x_values := xs
      y_values := xs.map fun q => cdIntensity params.unit shift ifac (q : ℝ)
      x_label := xLabelOf params.unit
      y_label := "Δε (L/(mol·cm))"
      title := "Circular Dichroism Spectra" }
  else
    { x_values := xs
      y_values := List.replicate xs.length 0
      x_label := xLabelOf params.unit
      y_label := ""
      title := "" }

/-! ### Axis scaling (main.cpp lines 533-555) -/

/-- Largest finite double, `std::numeric_limits<double>::max()`, the seed
of the overall-minimum fold (line 534); `lowest()` is its negation. -/
def DBL_MAX : ℚ := 2 ^ 1024 - 2 ^ 971

/-- `*std::min_element` of a nonempty vector; the `[]` case is `0` junk
(the C++ call on an empty vector would be undefined behavior). -/
def minElem : List ℚ → ℚ
  | [] => 0
  | x :: xs => xs.foldl min x

/-- `*std::max_element` of a nonempty vector; `[]` is junk as in `minElem`. -/
def maxElem : List ℚ → ℚ
  | [] => 0
  | x :: xs => xs.foldl max x

/-- The fold of lines 534-542 computing `overall_y_min`. -/
def overallYMin (yss : List (List ℚ)) : ℚ :=
  yss.foldl (fun acc ys => min acc (minElem ys)) DBL_MAX

/-- The fold of lines 535-542 computing `overall_y_max`. -/
def overallYMax (yss : List (List ℚ)) : ℚ :=
  yss.foldl (fun acc ys => max acc (maxElem ys)) (-DBL_MAX)

/-- The shared y-range with padding and sign-floor policy
(main.cpp lines 544-555), on the lists of y-values of the curves. -/
def computeYRange (mode : String) (yss : List (List ℚ)) : ℚ × ℚ :=
  let overall_y_min := overallYMin yss
  let overall_y_max := overallYMax yss
  let y_range := overall_y_max - overall_y_min
  let y_padding := y_range * (1 / 10)
  if mode ≠ "cd" ∧ mode ≠ "cdl" ∧ 0 ≤ overall_y_min then
    (0, overall_y_max + y_range * (1 / 10))
  else
    (overall_y_min - y_padding, overall_y_max + y_padding)

/-! ### Nice ticks (main.cpp `calculateNiceTicks`, lines 510-531)

`std::pow(10, std::floor(std::log10 r))` for `r > 0` is `10 ^ ⌊log₁₀ r⌋`,
which over `ℚ` is `(10 : ℚ) ^ Int.log 10 r` (`Int.log` is the floor of the
base-10 logarithm on positive rationals).  The degenerate input
`max_val = min_val` makes `rough_step = 0` in the source, where the double
computation runs through `log10(0) = -inf` and `0/0 = NaN`; that path is
outside this exact-arithmetic model, whose claims all assume
`min_val < max_val`. -/

def niceStep (min_val max_val : ℚ) (target_ticks : ℕ) : ℚ :=
  let rough_step := (max_val - min_val) / ((target_ticks : ℚ) - 1)
  let magnitude := (10 : ℚ) ^ (Int.log 10 rough_step)
  let normalized := rough_step / magnitude
  if normalized ≤ 1 then magnitude
  else if normalized ≤ 2 then 2 * magnitude
  else if normalized ≤ 5 then 5 * magnitude
  else 10 * magnitude

def calculateNiceTicks (min_val max_val : ℚ) (target_ticks : ℕ) : List ℚ :=
  let nice_step := niceStep min_val max_val target_ticks
  let start := (⌈min_val / nice_step⌉ : ℚ) * nice_step
  progWhileLe start nice_step (max_val + nice_step * (1 / 10))

/-! ### Export dispatch (main.cpp lines 667-710) and exit code (719-743) -/

structure ExportOutcome where
  artifact : Option String
  printed : String

/-- The format dispatch of `create_and_export_multiple_plots`: the vector
branch (line 670) and the raster branch (line 688) each write
`<output_filename>.<output_format>`; any other format matches neither
branch, writes nothing, and line 710 prints the export message regardless. -/
def exportPlot (output_filename output_format : String) : ExportOutcome :=
  let full_output_name := output_filename ++ "." ++ output_format
  if output_format = "svg" ∨ output_format = "eps" ∨ output_format = "pdf" then
    { artifact := some full_output_name
      printed := "Plot exported to: " ++ full_output_name }
  else if output_format = "png" ∨ output_format = "jpg" ∨ output_format = "jpeg" then
    { artifact := some full_output_name
      printed := "Plot exported to: " ++ full_output_name }
  else
    { artifact := none
      printed := "Plot exported to: " ++ full_output_name }

/-- The export step as seen by `main`'s try/catch: the dispatch above has
no failing branch (there is no `else` raising an error for an unknown
format), so it always returns normally. -/
def runExport (output_filename output_format : String) : Except String ExportOutcome :=
  Except.ok (exportPlot output_filename output_format)

/-- `main` (lines 719-743): `EXIT_SUCCESS = 0` when no exception reaches
the catch block, `EXIT_FAILURE = 1` otherwise. -/
def exitCode (r : Except String ExportOutcome) : ℕ :=
  match r with
  | Except.ok _ => 0
  | Except.error _ => 1

/-! ### Supporting lemmas for the claims -/

lemma tol_pos : (0 : ℚ) < tol := by unfold tol; norm_num

lemma xLoopFuel_some (e I : ℚ) :
    ∀ (n : ℕ) (cur : ℚ), e + tol < cur + n * I → ∃ l, xLoopFuel e I n cur = some l := by
  intro n
  induction n with
  | zero =>
    intro cur h
    refine ⟨[], ?_⟩
    rw [xLoopFuel, if_neg]
    push_cast at h
    linarith
  | succ n ih =>
    intro cur h
    by_cases hc : cur ≤ e + tol
    · obtain ⟨l, hl⟩ := ih (cur + I) (by push_cast at h ⊢; linarith)
      refine ⟨cur :: l, ?_⟩
      rw [xLoopFuel, if_pos hc, hl]
      rfl
    · exact ⟨[], by rw [xLoopFuel, if_neg hc]⟩

lemma xLoopFuel_none (e I : ℚ) (hI : I ≤ 0) :
    ∀ (n : ℕ) (cur : ℚ), cur ≤ e + tol → xLoopFuel e I n cur = none := by
  intro n
  induction n with
  | zero =>
    intro cur h
    rw [xLoopFuel, if_pos h]
  | succ n ih =>
    intro cur h
    rw [xLoopFuel, if_pos h, ih (cur + I) (by linarith)]
    rfl

lemma spectrum_x_values (p : PlotSpecParams) (i : ℕ) :
    (calculate_single_spectrum p i).x_values = xGrid p.x_start p.x_end p.interval := by
  simp only [calculate_single_spectrum]
  split
  · rfl
  · split
    · rfl
    · split <;> rfl

end BDFSpec

namespace BDFSpec

/-! ### Claim theorems -/

/-- C1 (code_bug evidence): for the unsupported output format `"bmp"` the
export dispatch produces no artifact, yet still prints the export-success
message, and `main` returns exit code `0` — the failure is silently
ignored, contradicting the claim that an unknown `output_format` is
reported to the caller with exit code 1. -/
theorem unknown_format_no_artifact_silent_success :
    (exportPlot "spectrum_plot" "bmp").artifact = none ∧
    (exportPlot "spectrum_plot" "bmp").printed = "Plot exported to: spectrum_plot.bmp" ∧
    exitCode (runExport "spectrum_plot" "bmp") = 0 :=
  ⟨rfl, rfl, rfl⟩

/-- C2: for every parameter record with `x_start < x_end` and
`interval > 0`, the generated `x_values` is strictly increasing, starts at
`x_start`, and its last element `l` satisfies
`x_end - interval < l ≤ x_end + 1e-8`. -/
theorem xvalues_monotone_first_last (p : PlotSpecParams) (i : ℕ)
    (h1 : p.x_start < p.x_end) (h2 : 0 < p.interval) :
    (calculate_single_spectrum p i).x_values.Pairwise (· < ·) ∧
    (calculate_single_spectrum p i).x_values.head? = some p.x_start ∧
    ∃ l, (calculate_single_spectrum p i).x_values.getLast? = some l ∧
      p.x_end - p.interval < l ∧ l ≤ p.x_end + tol := by
  rw [spectrum_x_values]
  have htol := tol_pos
  have hsb : p.x_start ≤ p.x_end + tol := by linarith
  unfold xGrid
  refine ⟨progWhileLe_pairwise _ _ _ h2, progWhileLe_head _ _ _ h2 hsb, ?_⟩
  obtain ⟨l, hl, hlb, hub⟩ := progWhileLe_getLast _ _ _ h2 hsb
  exact ⟨l, hl, by linarith, hlb⟩

/-- Witness for C2 at the source's default parameter record
(`x_start = 200 < 1000 = x_end`, `interval = 1`). -/
theorem xvalues_monotone_first_last_witness :
    (calculate_single_spectrum {} 0).x_values.Pairwise (· < ·) ∧
    (calculate_single_spectrum {} 0).x_values.head? = some (200 : ℚ) ∧
    ∃ l, (calculate_single_spectrum {} 0).x_values.getLast? = some l ∧
      (1000 : ℚ) - 1 < l ∧ l ≤ 1000 + tol :=
  xvalues_monotone_first_last {} 0 (by decide) (by decide)

/-- C3: when the mode is neither `cd` nor `cdl` and the overall minimum
(as folded by the code) is nonnegative, the axis scaler floors `y_min`
to `0` and pads `y_max` from the original data range
`overall_max - overall_min`, not from the floored `[0, overall_max]`. -/
theorem yrange_floor_padding (mode : String) (yss : List (List ℚ))
    (h1 : mode ≠ "cd") (h2 : mode ≠ "cdl") (h3 : 0 ≤ overallYMin yss) :
    computeYRange mode yss =
      (0, overallYMax yss + (overallYMax yss - overallYMin yss) * (1 / 10)) := by
  unfold computeYRange
  rw [if_pos ⟨h1, h2, h3⟩]

/-- Witness for C3: one curve with the single sample `0`. -/
theorem yrange_floor_padding_witness :
    computeYRange "abs" [[0]] =
      (0, overallYMax [[0]] + (overallYMax [[0]] - overallYMin [[0]]) * (1 / 10)) :=
  yrange_floor_padding "abs" [[0]] (by decide) (by decide)
    (le_min (sub_nonneg.mpr (pow_le_pow_right₀ (by norm_num) (by omega))) le_rfl)

/-- C7 counterexample: the claim says the last grid point is included
exactly when it lies within `interval * 1e-8` of `x_end`.  With
`x_start = 0`, `interval = 1/10`, `x_end = 1/10 - 1/200000000`, the code
generates the point `1/10`, which exceeds `x_end` by `5e-9`, more than
`interval * 1e-8 = 1e-9` — so the claimed rule would exclude it, but the
absolute `1e-8` tolerance of the code includes it. -/
theorem xgrid_tolerance_counterexample :
    xGrid 0 (1 / 10 - 1 / 200000000) (1 / 10) = [0, 1 / 10] ∧
    ¬(|(1 / 10 : ℚ) - (1 / 10 - 1 / 200000000)| ≤ (1 / 10) * tol) := by
  constructor
  · rw [xGrid, progWhileLe_eq_range _ _ _ (by norm_num)]
    have hfl : ⌊((1 / 10 - 1 / 200000000 : ℚ) + tol - 0) / (1 / 10)⌋ = 1 := by
      rw [Int.floor_eq_iff]
      unfold tol
      norm_num
    rw [hfl]
    rw [show ((1 : ℤ) + 1).toNat = 2 from rfl]
    norm_num [List.range_succ]
  · unfold tol
    rw [abs_le]
    intro ⟨_, h⟩
    norm_num at h

/-- C7 amended: a grid point `x_start + k * interval` is included exactly
when it is `≤ x_end + 1e-8` — the endpoint tolerance is the absolute
constant `1e-8`, independent of `interval`. -/
theorem xgrid_mem_absolute_tolerance (s e I q : ℚ) (hI : 0 < I) :
    q ∈ xGrid s e I ↔ ∃ k : ℕ, q = s + (k : ℚ) * I ∧ q ≤ e + tol := by
  unfold xGrid
  exact progWhileLe_mem s I (e + tol) q hI

/-- Witness for the amended C7 at `x_start = 0`, `x_end = 2`,
`interval = 1`, sample point `1`. -/
theorem xgrid_mem_absolute_tolerance_witness :
    (0 : ℚ) < 1 ∧
      ((1 : ℚ) ∈ xGrid 0 2 1 ↔ ∃ k : ℕ, (1 : ℚ) = 0 + (k : ℚ) * 1 ∧ (1 : ℚ) ≤ 2 + tol) :=
  ⟨by decide, xgrid_mem_absolute_tolerance 0 2 1 1 (by decide)⟩

/-- C9: the `cd` and `cdl` modes take the same branch of the synthesis
dispatch, so for every parameter record and source index they produce
identical curves — same `x_values`, `y_values`, labels and title. -/
theorem cd_cdl_same_curve (p : PlotSpecParams) (i : ℕ) :
    calculate_single_spectrum { p with mode := "cd" } i =
      calculate_single_spectrum { p with mode := "cdl" } i := by
  simp [calculate_single_spectrum]

/-- C10: the x-grid loop (modelled fuel-indexed: `none` = fuel ran out
with the loop still running) terminates for every `interval > 0`, and for
`interval ≤ 0` with `x_start ≤ x_end + 1e-8` it runs forever — no fuel
suffices — so `interval > 0` is necessary for termination there. -/
theorem xgrid_loop_terminates_iff_pos_interval (s e I : ℚ) :
    (0 < I → ∃ n l, xLoopFuel e I n s = some l) ∧
    (I ≤ 0 → s ≤ e + tol → ∀ n, xLoopFuel e I n s = none) := by
  constructor
  · intro hI
    exact ⟨progFuel s I (e + tol), xLoopFuel_some e I _ s (progFuel_spec s I (e + tol) hI)⟩
  · intro hI hs n
    exact xLoopFuel_none e I hI n s hs

/-- Witness for C10: with `interval = 1` the loop over `[0, 2]`
terminates; with `interval = -1` it never does. -/
theorem xgrid_loop_terminates_witness :
    (∃ n l, xLoopFuel 2 1 n 0 = some l) ∧ (∀ n, xLoopFuel 2 (-1) n 0 = none) :=
  ⟨(xgrid_loop_terminates_iff_pos_interval 0 2 1).1 (by decide),
   (xgrid_loop_terminates_iff_pos_interval 0 2 (-1)).2 (by decide)
     (le_add_of_le_of_nonneg (by decide) (div_nonneg (by decide) (by decide)))⟩

/-- C6: a `(mode, unit)` combination without a band model — unknown mode
string, unknown unit string, or `emi` with `cm-1` — still returns a curve
(no failure), with all-zero `y_values`; an unknown mode leaves the
default-constructed empty `y_label`/`title`, an unknown unit the empty
`x_label`. -/
theorem unknown_mode_unit_zero_curve (p : PlotSpecParams) (i : ℕ)
    (h : (p.mode ≠ "abs" ∧ p.mode ≠ "emi" ∧ p.mode ≠ "cd" ∧ p.mode ≠ "cdl") ∨
         (p.unit ≠ "nm" ∧ p.unit ≠ "eV" ∧ p.unit ≠ "cm-1") ∨
         (p.mode = "emi" ∧ p.unit = "cm-1")) :
    (∀ y ∈ (calculate_single_spectrum p i).y_values, y = 0) ∧
    ((p.mode ≠ "abs" ∧ p.mode ≠ "emi" ∧ p.mode ≠ "cd" ∧ p.mode ≠ "cdl") →
      (calculate_single_spectrum p i).y_label = "" ∧
        (calculate_single_spectrum p i).title = "") ∧
    ((p.unit ≠ "nm" ∧ p.unit ≠ "eV" ∧ p.unit ≠ "cm-1") →
      (calculate_single_spectrum p i).x_label = "") := by
  refine ⟨?_, ?_, ?_⟩
  · rcases h with ⟨hm1, hm2, hm3, hm4⟩ | ⟨hu1, hu2, hu3⟩ | ⟨hm, hu⟩
    · simp [calculate_single_spectrum, hm1, hm2, hm3, hm4, List.mem_replicate]
    · rcases eq_or_ne p.mode "abs" with hm | hm1
      · simp [calculate_single_spectrum, hm, absIntensity, hu1, hu2, hu3]
      rcases eq_or_ne p.mode "emi" with hm | hm2
      · simp [calculate_single_spectrum, hm, hm1, emiIntensity, hu1, hu2, hu3]
      by_cases hcd : p.mode = "cd" ∨ p.mode = "cdl"
      · simp [calculate_single_spectrum, hm1, hm2, hcd, cdIntensity, hu1, hu2, hu3]
      · simp [calculate_single_spectrum, hm1, hm2, hcd, List.mem_replicate]
    · simp [calculate_single_spectrum, hm, hu, emiIntensity]
  · rintro ⟨hm1, hm2, hm3, hm4⟩
    constructor <;> simp [calculate_single_spectrum, hm1, hm2, hm3, hm4]
  · rintro ⟨hu1, hu2, hu3⟩
    simp only [calculate_single_spectrum]
    split
    · simp [xLabelOf, hu1, hu2, hu3]
    · split
      · simp [xLabelOf, hu1, hu2, hu3]
      · split <;> simp [xLabelOf, hu1, hu2, hu3]

/-- Witness for C6 at an unrecognized mode string. -/
theorem unknown_mode_unit_zero_curve_witness :
    (∀ y ∈ (calculate_single_spectrum { mode := "xyz" } 0).y_values, y = 0) ∧
    ((({ mode := "xyz" } : PlotSpecParams).mode ≠ "abs" ∧
        ({ mode := "xyz" } : PlotSpecParams).mode ≠ "emi" ∧
        ({ mode := "xyz" } : PlotSpecParams).mode ≠ "cd" ∧
        ({ mode := "xyz" } : PlotSpecParams).mode ≠ "cdl") →
      (calculate_single_spectrum { mode := "xyz" } 0).y_label = "" ∧
        (calculate_single_spectrum { mode := "xyz" } 0).title = "") ∧
    ((({ mode := "xyz" } : PlotSpecParams).unit ≠ "nm" ∧
        ({ mode := "xyz" } : PlotSpecParams).unit ≠ "eV" ∧
        ({ mode := "xyz" } : PlotSpecParams).unit ≠ "cm-1") →
      (calculate_single_spectrum { mode := "xyz" } 0).x_label = "") :=
  unknown_mode_unit_zero_curve { mode := "xyz" } 0
    (Or.inl ⟨by decide, by decide, by decide, by decide⟩)

/-- C8: under `abs`/`nm`, curve 1 relates to curve 0 by a `+20` shift of
every band center and an `0.85 = 1 - 1*0.15` scale of every amplitude:
the same grid is used, each curve's `y_values` maps its per-point band
sum over the grid, and curve 1's band sum at `x` equals `0.85` times
curve 0's band sum at `x - 20`. -/
theorem abs_nm_shift_scale (p : PlotSpecParams) (hm : p.mode = "abs") (hu : p.unit = "nm") :
    (calculate_single_spectrum p 1).x_values = (calculate_single_spectrum p 0).x_values ∧
    (calculate_single_spectrum p 1).y_values =
      (calculate_single_spectrum p 1).x_values.map
        (fun q => absIntensity "nm" ((1 : ℝ) * 20) (1 - (1 : ℝ) * 0.15) (q : ℝ)) ∧
    (calculate_single_spectrum p 0).y_values =
      (calculate_single_spectrum p 0).x_values.map
        (fun q => absIntensity "nm" ((0 : ℝ) * 20) (1 - (0 : ℝ) * 0.15) (q : ℝ)) ∧
    ∀ x : ℝ, absIntensity "nm" ((1 : ℝ) * 20) (1 - (1 : ℝ) * 0.15) x
        = 0.85 * absIntensity "nm" ((0 : ℝ) * 20) (1 - (0 : ℝ) * 0.15) (x - 20) := by
  refine ⟨by rw [spectrum_x_values, spectrum_x_values], ?_, ?_, ?_⟩
  · simp [calculate_single_spectrum, hm, hu]
  · simp [calculate_single_spectrum, hm, hu]
  · intro x
    simp only [absIntensity, if_pos rfl]
    norm_num
    ring_nf

/-- Witness for C8 at the source's default parameter record
(`mode = "abs"`, `unit = "nm"`). -/
theorem abs_nm_shift_scale_witness :
    (calculate_single_spectrum {} 1).x_values = (calculate_single_spectrum {} 0).x_values ∧
    (calculate_single_spectrum {} 1).y_values =
      (calculate_single_spectrum {} 1).x_values.map
        (fun q => absIntensity "nm" ((1 : ℝ) * 20) (1 - (1 : ℝ) * 0.15) (q : ℝ)) ∧
    (calculate_single_spectrum {} 0).y_values =
      (calculate_single_spectrum {} 0).x_values.map
        (fun q => absIntensity "nm" ((0 : ℝ) * 20) (1 - (0 : ℝ) * 0.15) (q : ℝ)) ∧
    ∀ x : ℝ, absIntensity "nm" ((1 : ℝ) * 20) (1 - (1 : ℝ) * 0.15) x
        = 0.85 * absIntensity "nm" ((0 : ℝ) * 20) (1 - (0 : ℝ) * 0.15) (x - 20) :=
  abs_nm_shift_scale {} rfl rfl

/-! ### Nice-step facts for C4 -/

lemma niceStep_pos_le (a b : ℚ) (hab : a < b) :
    0 < niceStep a b 6 ∧ niceStep a b 6 ≤ (b - a) / 2 := by
  have hr : (0 : ℚ) < (b - a) / (((6 : ℕ) : ℚ) - 1) := div_pos (by linarith) (by norm_num)
  set r := (b - a) / (((6 : ℕ) : ℚ) - 1) with hrdef
  have hrb : r = (b - a) / 5 := by rw [hrdef]; norm_num
  set m := (10 : ℚ) ^ (Int.log 10 r) with hmdef
  have hm : (0 : ℚ) < m := zpow_pos (by norm_num) _
  have hmr : m ≤ r := Int.zpow_log_le_self (by norm_num) hr
  have hstep : niceStep a b 6 =
      (if r / m ≤ 1 then m else if r / m ≤ 2 then 2 * m else if r / m ≤ 5 then 5 * m
       else 10 * m) := rfl
  rw [hstep]
  split
  · exact ⟨hm, by rw [hrb] at hmr; linarith⟩
  · split
    · exact ⟨by linarith, by rw [hrb] at hmr; linarith⟩
    · rename_i h1 h2
      have h2m : 2 * m < r := by
        rw [not_le, lt_div_iff₀ hm] at h2
        linarith
      split
      · exact ⟨by linarith, by rw [hrb] at h2m; linarith⟩
      · rename_i h5
        have h5m : 5 * m < r := by
          rw [not_le, lt_div_iff₀ hm] at h5
          linarith
        exact ⟨by linarith, by rw [hrb] at h5m; linarith⟩

lemma niceStep_form (a b : ℚ) :
    ∃ k : ℤ, niceStep a b 6 = 10 ^ k ∨ niceStep a b 6 = 2 * 10 ^ k ∨
      niceStep a b 6 = 5 * 10 ^ k := by
  set r := (b - a) / (((6 : ℕ) : ℚ) - 1) with hrdef
  set L := Int.log 10 r with hLdef
  set m := (10 : ℚ) ^ L with hmdef
  have hstep : niceStep a b 6 =
      (if r / m ≤ 1 then m else if r / m ≤ 2 then 2 * m else if r / m ≤ 5 then 5 * m
       else 10 * m) := rfl
  rw [hstep]
  split
  · exact ⟨L, Or.inl rfl⟩
  · split
    · exact ⟨L, Or.inr (Or.inl rfl)⟩
    · split
      · exact ⟨L, Or.inr (Or.inr rfl)⟩
      · refine ⟨L + 1, Or.inl ?_⟩
        rw [zpow_add_one₀ (by norm_num : (10 : ℚ) ≠ 0)]
        ring

/-- C4: for `min < max`, `calculateNiceTicks min max 6` is non-decreasing,
evenly spaced by a step of the form `10^k`, `2·10^k` or `5·10^k` (the
1-2-5-10 choice from `rough_step = (max-min)/5`), its first tick is the
smallest multiple of the step that is `≥ min`, and the ticks continue by
the step exactly while `tick ≤ max + step * 0.1`. -/
theorem nice_ticks_spec (a b : ℚ) (hab : a < b) :
    (∃ k : ℤ, niceStep a b 6 = 10 ^ k ∨ niceStep a b 6 = 2 * 10 ^ k ∨
      niceStep a b 6 = 5 * 10 ^ k) ∧
    (calculateNiceTicks a b 6).Pairwise (· ≤ ·) ∧
    (∀ i, ∀ h : i + 1 < (calculateNiceTicks a b 6).length,
      (calculateNiceTicks a b 6).get ⟨i + 1, h⟩ =
        (calculateNiceTicks a b 6).get ⟨i, by omega⟩ + niceStep a b 6) ∧
    (calculateNiceTicks a b 6).head? =
      some ((⌈a / niceStep a b 6⌉ : ℚ) * niceStep a b 6) ∧
    a ≤ (⌈a / niceStep a b 6⌉ : ℚ) * niceStep a b 6 ∧
    (∀ z : ℤ, a ≤ (z : ℚ) * niceStep a b 6 →
      (⌈a / niceStep a b 6⌉ : ℚ) * niceStep a b 6 ≤ (z : ℚ) * niceStep a b 6) ∧
    (∀ t ∈ calculateNiceTicks a b 6, t ≤ b + niceStep a b 6 * (1 / 10)) ∧
    (∀ l, (calculateNiceTicks a b 6).getLast? = some l →
      b + niceStep a b 6 * (1 / 10) < l + niceStep a b 6) := by
  obtain ⟨hS, hShalf⟩ := niceStep_pos_le a b hab
  set S := niceStep a b 6 with hSdef
  have hticks : calculateNiceTicks a b 6 =
      progWhileLe ((⌈a / S⌉ : ℚ) * S) S (b + S * (1 / 10)) := rfl
  have hstart_ge : a ≤ (⌈a / S⌉ : ℚ) * S := by
    have h1 : a / S ≤ (⌈a / S⌉ : ℚ) := Int.le_ceil _
    calc a = (a / S) * S := by field_simp
      _ ≤ (⌈a / S⌉ : ℚ) * S := mul_le_mul_of_nonneg_right h1 hS.le
  have hstart_lt : (⌈a / S⌉ : ℚ) * S < a + S := by
    have h1 : (⌈a / S⌉ : ℚ) < a / S + 1 := Int.ceil_lt_add_one _
    calc (⌈a / S⌉ : ℚ) * S < (a / S + 1) * S := mul_lt_mul_of_pos_right h1 hS
      _ = a + S := by field_simp
  have hsb : (⌈a / S⌉ : ℚ) * S ≤ b + S * (1 / 10) := by
    nlinarith
  refine ⟨niceStep_form a b, ?_, ?_, ?_, hstart_ge, ?_, ?_, ?_⟩
  · rw [hticks]
    exact (progWhileLe_pairwise _ _ _ hS).imp le_of_lt
  · intro i h
    have h1 : i + 1 < (progWhileLe ((⌈a / S⌉ : ℚ) * S) S (b + S * (1 / 10))).length := by
      rw [← hticks]; exact h
    have h0 : i < (progWhileLe ((⌈a / S⌉ : ℚ) * S) S (b + S * (1 / 10))).length := by
      omega
    have e1 := progWhileLe_get ((⌈a / S⌉ : ℚ) * S) S (b + S * (1 / 10)) hS (i + 1) h1
    have e0 := progWhileLe_get ((⌈a / S⌉ : ℚ) * S) S (b + S * (1 / 10)) hS i h0
    calc (calculateNiceTicks a b 6).get ⟨i + 1, h⟩
        = (⌈a / S⌉ : ℚ) * S + ((i + 1 : ℕ) : ℚ) * S := by
          rw [← e1]
          congr 1
      _ = ((⌈a / S⌉ : ℚ) * S + (i : ℚ) * S) + S := by push_cast; ring
      _ = (calculateNiceTicks a b 6).get ⟨i, by omega⟩ + S := by
          rw [show (calculateNiceTicks a b 6).get ⟨i, by omega⟩
              = (⌈a / S⌉ : ℚ) * S + (i : ℚ) * S from by rw [← e0]; congr 1]
  · rw [hticks]
    exact progWhileLe_head _ _ _ hS hsb
  · intro z hz
    have h1 : a / S ≤ (z : ℚ) := by
      rw [div_le_iff₀ hS]
      exact hz
    have h2 : ⌈a / S⌉ ≤ z := Int.ceil_le.mpr h1
    exact mul_le_mul_of_nonneg_right (by exact_mod_cast h2) hS.le
  · intro t ht
    rw [hticks] at ht
    obtain ⟨k, _, hle⟩ := (progWhileLe_mem _ _ _ _ hS).mp ht
    exact hle
  · intro l hl
    rw [hticks] at hl
    obtain ⟨l', hl', _, hbl⟩ := progWhileLe_getLast _ _ _ hS hsb
    rw [hl'] at hl
    injection hl with hll
    rw [← hll]
    exact hbl

/-- Witness for C4 at `min = 0`, `max = 10`. -/
theorem nice_ticks_spec_witness :
    (∃ k : ℤ, niceStep 0 10 6 = 10 ^ k ∨ niceStep 0 10 6 = 2 * 10 ^ k ∨
      niceStep 0 10 6 = 5 * 10 ^ k) ∧
    (calculateNiceTicks 0 10 6).Pairwise (· ≤ ·) ∧
    (∀ i, ∀ h : i + 1 < (calculateNiceTicks 0 10 6).length,
      (calculateNiceTicks 0 10 6).get ⟨i + 1, h⟩ =
        (calculateNiceTicks 0 10 6).get ⟨i, by omega⟩ + niceStep 0 10 6) ∧
    (calculateNiceTicks 0 10 6).head? =
      some ((⌈(0 : ℚ) / niceStep 0 10 6⌉ : ℚ) * niceStep 0 10 6) ∧
    (0 : ℚ) ≤ (⌈(0 : ℚ) / niceStep 0 10 6⌉ : ℚ) * niceStep 0 10 6 ∧
    (∀ z : ℤ, (0 : ℚ) ≤ (z : ℚ) * niceStep 0 10 6 →
      (⌈(0 : ℚ) / niceStep 0 10 6⌉ : ℚ) * niceStep 0 10 6 ≤ (z : ℚ) * niceStep 0 10 6) ∧
    (∀ t ∈ calculateNiceTicks 0 10 6, t ≤ 10 + niceStep 0 10 6 * (1 / 10)) ∧
    (∀ l, (calculateNiceTicks 0 10 6).getLast? = some l →
      10 + niceStep 0 10 6 * (1 / 10) < l + niceStep 0 10 6) :=
  nice_ticks_spec 0 10 (by decide)

end BDFSpec
